import Mathlib

/-!
Verification of the data transformation layer of the MovieLens dashboard
(`src/Week-03-EDA-and-Dashboards/exercise/hussam_dashboard/app.py`).

The app is a Streamlit dashboard; all analytical content lives in `main`,
which applies a fixed set of pandas transforms (Q1..Q7) to one ratings
table.  We embed the table as a `List Row` and each pandas pipeline as a
Lean function, with rational arithmetic in place of floats.

Modelling notes for the pandas primitives used by the source:
* `df.groupby(k, sort=True)` (the default) enumerates the distinct keys in
  ascending key order; each group holds the matching rows in input order.
* `sort_values` on a single column uses numpy's default quicksort, whose
  tie order is deterministic but unspecified; we model the ascending
  permutation as a stable sort.  No theorem below depends on the tie order
  of a single-column sort.  pandas computes a descending single-column
  sort by reversing the ascending permutation (`nargsort` reverses the
  indexer when `ascending=False`), which we model literally.
* `sort_values` on several columns uses a lexicographic stable sort.
* `.agg(mean, size)` is the group sum divided by the group size, and the
  group size.
* `rolling(window=w, center=True).mean()` with default `min_periods`
  yields, at position `i` of a series of length `n`, the mean of the `w`
  entries at positions `i - w / 2 .. i + (w - 1) / 2` when that window lies
  inside `0 .. n - 1`, and a missing value (`none`) otherwise.
-/

namespace MovieDashboard

/-- A row of the cleaned `movie_ratings.csv` table: one rating event.
Ratings are modelled as rationals (the CSV holds numeric scores). -/
structure Row where
  user_id : Nat
  movie_id : Nat
  title : String
  genres : String
  rating : ℚ
  year : Int
  age : Nat
deriving DecidableEq, Repr

/-- The in-memory ratings table: an ordered collection of rating events. -/
abbrev Table := List Row

/-! ### Generic pandas primitives -/

/-- Keys of `df.groupby(k, sort=True)`: the distinct keys, in ascending
order under `le` (pandas sorts group keys by default). -/
def groupKeys {κ : Type} [DecidableEq κ] (le : κ → κ → Prop) [DecidableRel le]
    (k : Row → κ) (df : Table) : List κ :=
  ((df.map k).dedup).insertionSort le

/-- The rows of the group with key `g`, in input order. -/
def groupRows {κ : Type} [DecidableEq κ] (k : Row → κ) (df : Table) (g : κ) :
    Table :=
  df.filter (fun r => decide (k r = g))

/-- Group size: pandas `.size()` / `.agg(size)`. -/
def groupSize {κ : Type} [DecidableEq κ] (k : Row → κ) (df : Table) (g : κ) :
    Nat :=
  (groupRows k df g).length

/-- Group mean rating: pandas `.agg(mean_rating=("rating", "mean"))`. -/
def groupMeanRating {κ : Type} [DecidableEq κ] (k : Row → κ) (df : Table)
    (g : κ) : ℚ :=
  ((groupRows k df g).map Row.rating).sum / (groupSize k df g : ℚ)

/-- pandas `sort_values(col, ascending=asc)`.  The ascending permutation is
modelled as a stable sort on the key; descending reverses it, exactly as
pandas `nargsort` does. -/
def sortValues {α β : Type} [LinearOrder β] (key : α → β) (asc : Bool)
    (l : List α) : List α :=
  let s := l.insertionSort (fun a b => key a ≤ key b)
  if asc then s else s.reverse

/-! ### Q1: genre breakdown (source lines 74-95) -/

/-- A row of Q1's display table: genre label, rating count, percentage. -/
structure Q1Row where
  genres : String
  count : Nat
  pct : ℚ
deriving DecidableEq, Repr

/-- Source: `genre_counts = df.groupby("genres", dropna=False).size()
.reset_index(name="count").sort_values("count", ascending=False)`. -/
def q1_genre_counts (df : Table) : List (String × Nat) :=
  sortValues (fun gc => gc.2) false
    ((groupKeys (· ≤ ·) Row.genres df).map
      (fun g => (g, groupSize Row.genres df g)))

/-- Source: `total = genre_counts["count"].sum()`. -/
def q1_total (df : Table) : Nat :=
  ((q1_genre_counts df).map (fun gc => gc.2)).sum

/-- Source: `genre_counts["pct"] = 100 * genre_counts["count"] /
max(total, 1)`. -/
def q1_with_pct (df : Table) : List Q1Row :=
  (q1_genre_counts df).map
    (fun gc => ⟨gc.1, gc.2, 100 * (gc.2 : ℚ) / (max (q1_total df) 1 : Nat)⟩)

/-- Source: `major = genre_counts[genre_counts["pct"] >= min_pct].copy()`. -/
def q1_major (df : Table) (p : ℚ) : List Q1Row :=
  (q1_with_pct df).filter (fun r => decide (p ≤ r.pct))

/-- Source: `minor = genre_counts[genre_counts["pct"] < min_pct]`. -/
def q1_minor (df : Table) (p : ℚ) : List Q1Row :=
  (q1_with_pct df).filter (fun r => decide (r.pct < p))

/-- Source: the synthetic aggregate row, `other_row = pd.DataFrame(
genres=["Other"], count=[int(minor["count"].sum())], pct=[minor["pct"].sum()])`. -/
def q1_other_row (df : Table) (p : ℚ) : Q1Row :=
  ⟨"Other", ((q1_minor df p).map (fun r => r.count)).sum,
    ((q1_minor df p).map (fun r => r.pct)).sum⟩

/-- Source: `display_df = pd.concat([major, other_row])` when `minor` is
nonempty, else `display_df = major`. -/
def q1_display (df : Table) (p : ℚ) : List Q1Row :=
  if q1_minor df p = [] then q1_major df p
  else q1_major df p ++ [q1_other_row df p]

/-! ### Q2: mean rating by genre (source lines 109-116) -/

/-- A row of Q2's table: genre, mean rating, rating count. -/
structure Q2Row where
  genres : String
  mean_rating : ℚ
  n_ratings : Nat
deriving DecidableEq, Repr

/-- Source: `genre_stats = df.groupby("genres", dropna=False)
.agg(mean_rating=("rating", "mean"), n_ratings=("rating", "size"))
.reset_index()`. -/
def q2_genre_stats (df : Table) : List Q2Row :=
  (groupKeys (· ≤ ·) Row.genres df).map
    (fun g => ⟨g, groupMeanRating Row.genres df g, groupSize Row.genres df g⟩)

/-- Source: `filtered = genre_stats[genre_stats["n_ratings"] >= min_count]`. -/
def q2_filtered (df : Table) (m : Nat) : List Q2Row :=
  (q2_genre_stats df).filter (fun r => decide (m ≤ r.n_ratings))

/-- Source: `filtered = filtered.sort_values("mean_rating",
ascending=ascending)` where `ascending = sort_order == "Ascending"`. -/
def q2 (df : Table) (m : Nat) (ascending : Bool) : List Q2Row :=
  sortValues (fun r => r.mean_rating) ascending (q2_filtered df m)

/-! ### Q3: mean rating by release year (source lines 132-147) -/

/-- A row of Q3's `year_stats` table before smoothing. -/
structure Q3Stat where
  year : Int
  mean_rating : ℚ
  n_ratings : Nat
deriving DecidableEq, Repr

/-- A row of Q3's final table, with the smoothed column (missing values of
the centered rolling mean are `none`). -/
structure Q3Row where
  year : Int
  mean_rating : ℚ
  mean_rating_smoothed : Option ℚ
  n_ratings : Nat
deriving DecidableEq, Repr

/-- Source: `year_stats = df.groupby("year", dropna=False)
.agg(mean_rating=("rating", "mean"), n_ratings=("rating", "size"))
.reset_index()`. -/
def q3_year_stats (df : Table) : List Q3Stat :=
  (groupKeys (· ≤ ·) Row.year df).map
    (fun y => ⟨y, groupMeanRating Row.year df y, groupSize Row.year df y⟩)

/-- Source: `year_filtered = year_stats[mask & (year_stats["n_ratings"] >=
min_count_year)].sort_values("year")` with `mask` the inclusive range
check `lo <= year <= hi`. -/
def q3_year_filtered (df : Table) (lo hi : Int) (m : Nat) : List Q3Stat :=
  sortValues (fun s => s.year) true
    ((q3_year_stats df).filter
      (fun s => decide (lo ≤ s.year) && decide (s.year ≤ hi) &&
        decide (m ≤ s.n_ratings)))

/-- pandas `series.rolling(window=w, center=True).mean()` with the default
`min_periods = w`: at position `i`, the mean of the `w` entries at
positions `i - w / 2 .. i + (w - 1) / 2` when that window lies within the
series, else a missing value. -/
def rolling_mean_centered (w : Nat) (s : List ℚ) : List (Option ℚ) :=
  (List.range s.length).map (fun i =>
    if w / 2 ≤ i ∧ i + (w - 1) / 2 < s.length then
      some ((((s.drop (i - w / 2)).take w).sum) / (w : ℚ))
    else none)

/-- Source: `year_filtered["mean_rating_smoothed"] = year_filtered
["mean_rating"].rolling(window=smooth_window, center=True).mean()` when
`smooth_window > 1 and not year_filtered.empty`, else the raw
`mean_rating` column. -/
def q3_smoothed (df : Table) (lo hi : Int) (m w : Nat) : List (Option ℚ) :=
  let f := q3_year_filtered df lo hi m
  if 1 < w ∧ f ≠ [] then rolling_mean_centered w (f.map (fun s => s.mean_rating))
  else f.map (fun s => some s.mean_rating)

/-- Q3's final table: `year_filtered` with the smoothed column attached. -/
def q3 (df : Table) (lo hi : Int) (m w : Nat) : List Q3Row :=
  List.zipWith (fun (s : Q3Stat) (o : Option ℚ) =>
      ⟨s.year, s.mean_rating, o, s.n_ratings⟩)
    (q3_year_filtered df lo hi m) (q3_smoothed df lo hi m w)

/-! ### Q4: top movies (source lines 160-166) -/

/-- A row of Q4's per-movie table. -/
structure Q4Row where
  movie_id : Nat
  title : String
  mean_rating : ℚ
  n_ratings : Nat
deriving DecidableEq, Repr

/-- Ascending lexicographic order on (Nat, String) pairs: the key order of
`groupby(["movie_id", "title"])` and of `groupby(["age", "genres"])`. -/
def pairLe (a b : Nat × String) : Prop :=
  a.1 < b.1 ∨ (a.1 = b.1 ∧ a.2 ≤ b.2)

instance : DecidableRel pairLe := fun a b => by
  unfold pairLe; infer_instance

/-- Source: `movie_stats = df.groupby(["movie_id", "title"], dropna=False)
.agg(mean_rating=("rating", "mean"), n_ratings=("rating", "size"))
.reset_index()`. -/
def q4_movie_stats (df : Table) : List Q4Row :=
  (groupKeys pairLe (fun r => (r.movie_id, r.title)) df).map
    (fun k => ⟨k.1, k.2, groupMeanRating (fun r => (r.movie_id, r.title)) df k,
      groupSize (fun r => (r.movie_id, r.title)) df k⟩)

/-- Source: `movie_filtered = movie_stats[movie_stats["n_ratings"] >=
min_ratings_movie]`. -/
def q4_movie_filtered (df : Table) (m : Nat) : List Q4Row :=
  (q4_movie_stats df).filter (fun r => decide (m ≤ r.n_ratings))

/-- The composite descending order of `sort_values(["mean_rating",
"n_ratings"], ascending=[False, False])`: higher mean first, ties by
higher count.  A multi-column pandas sort is a stable lexicographic sort,
so rows tied on both keys keep input order. -/
def q4_le (a b : Q4Row) : Prop :=
  b.mean_rating < a.mean_rating ∨
    (a.mean_rating = b.mean_rating ∧ b.n_ratings ≤ a.n_ratings)

instance : DecidableRel q4_le := fun a b => by
  unfold q4_le; infer_instance

/-- Source: `top_movies = movie_filtered.sort_values(["mean_rating",
"n_ratings"], ascending=[False, False]).head(top_n)`. -/
def q4 (df : Table) (m n : Nat) : List Q4Row :=
  ((q4_movie_filtered df m).insertionSort q4_le).take n

/-! ### Q5: ratings vs age for selected genres (source lines 176-183) -/

/-- A row of Q5's long-form table. -/
structure Q5Row where
  age : Nat
  genres : String
  mean_rating : ℚ
  n_ratings : Nat
deriving DecidableEq, Repr

/-- Source: `df[df["genres"].isin(genres_to_compare)]`. -/
def q5_restricted (df : Table) (sel : List String) : Table :=
  df.filter (fun r => decide (r.genres ∈ sel))

/-- Source: `age_stats = df[df["genres"].isin(genres_to_compare)]
.groupby(["age", "genres"]).agg(mean_rating=("rating", "mean"),
n_ratings=("rating", "size")).reset_index()`. -/
def q5 (df : Table) (sel : List String) : List Q5Row :=
  (groupKeys pairLe (fun r => (r.age, r.genres)) (q5_restricted df sel)).map
    (fun k => ⟨k.1, k.2,
      groupMeanRating (fun r => (r.age, r.genres)) (q5_restricted df sel) k,
      groupSize (fun r => (r.age, r.genres)) (q5_restricted df sel) k⟩)

/-! ### Q7: cleaning genres from the raw dataset (source lines 205-213)

The raw/EC variant may hold null genres and pipe-delimited composite
genre strings.  Strings are modelled as `List Char` here so that the
splitting on the pipe delimiter is a plain structural recursion. -/

/-- Character-list strings, used for the raw genre column. -/
abbrev Str := List Char

/-- A row of the raw/EC table: `genres` may be null (`none`); the other
columns are as in `Row` (title also as `Str` for uniform explosion). -/
structure RawRow where
  user_id : Nat
  movie_id : Nat
  title : Str
  genres : Option Str
  rating : ℚ
  year : Int
  age : Nat
deriving DecidableEq, Repr

/-- A row of the exploded/cleaned table: one genre token per row. -/
structure CleanRow where
  user_id : Nat
  movie_id : Nat
  title : Str
  genres : Str
  rating : ℚ
  year : Int
  age : Nat
deriving DecidableEq, Repr

/-- The raw/EC table. -/
abbrev RawTable := List RawRow

/-- pandas `series.str.split("|")` on one string: split on the pipe
delimiter into the list of (possibly empty) tokens between pipes. -/
def splitOnPipe : Str → List Str
  | [] => [[]]
  | c :: cs =>
    if c = '|' then [] :: splitOnPipe cs
    else
      match splitOnPipe cs with
      | [] => [[c]]
      | t :: ts => (c :: t) :: ts

/-- The literal label substituted for null genres:
"(no genres listed)". -/
def noGenresListed : Str := "(no genres listed)".data

/-- Source line 209: `df_ec["genres"] = df_ec["genres"].fillna("(no genres
listed)")` — the column written back into the frame. -/
def q7_fillna (t : RawTable) : RawTable :=
  t.map (fun r => { r with genres := some (r.genres.getD noGenresListed) })

/-- Exploding one (already null-filled) row: one output row per pipe-split
genre token, every other column duplicated. -/
def q7_explode_row (r : RawRow) : List CleanRow :=
  (splitOnPipe (r.genres.getD noGenresListed)).map
    (fun g => ⟨r.user_id, r.movie_id, r.title, g, r.rating, r.year, r.age⟩)

/-- Source line 210: `df_ec_cleaned = df_ec.assign(genres=df_ec["genres"]
.str.split("|")).explode("genres")` — `assign` builds a new frame, then
each row expands into one row per token. -/
def q7_cleaned (t : RawTable) : List CleanRow :=
  t.flatMap q7_explode_row

/-- The Q7 tab body as a state transformer on the `df_ec` binding: line
209 mutates the loaded frame in place (column assignment), line 210
builds a new cleaned frame from it.  Returns (final state of `df_ec`,
`df_ec_cleaned`). -/
def q7_run (t : RawTable) : RawTable × List CleanRow :=
  let t1 := q7_fillna t
  (t1, q7_cleaned t1)

/-! ### The two loaders (source lines 11-22)

Both loaders resolve `Path(__file__).resolve().parents[2] / "data" /
"movie_ratings.csv"` and call `pd.read_csv` on it; a missing file raises
`FileNotFoundError`.  We model the filesystem as a map from paths to
optional raw CSV tables. -/

/-- A filesystem state: which path holds which table. -/
abbrev FileSystem := String → Option RawTable

/-- The missing-file condition of `pd.read_csv`. -/
inductive LoadError where
  | fileNotFound : String → LoadError
deriving DecidableEq, Repr

/-- The path resolved by `load_movie_ratings` (source line 13):
`parents[2] / "data" / "movie_ratings.csv"` relative to the app file. -/
def load_movie_ratings_path : String :=
  "src/Week-03-EDA-and-Dashboards/data/movie_ratings.csv"

/-- The path resolved by `load_movie_ratings_ec` (source line 20): the
very same expression, `parents[2] / "data" / "movie_ratings.csv"`. -/
def load_movie_ratings_ec_path : String :=
  "src/Week-03-EDA-and-Dashboards/data/movie_ratings.csv"

/-- Source lines 11-15: `load_movie_ratings` reads the fixed path, failing
with the missing-file condition when absent. -/
def load_movie_ratings (fs : FileSystem) : Except LoadError RawTable :=
  match fs load_movie_ratings_path with
  | some t => Except.ok t
  | none => Except.error (LoadError.fileNotFound load_movie_ratings_path)

/-- Source lines 18-22: `load_movie_ratings_ec` reads its fixed path,
failing with the missing-file condition when absent. -/
def load_movie_ratings_ec (fs : FileSystem) : Except LoadError RawTable :=
  match fs load_movie_ratings_ec_path with
  | some t => Except.ok t
  | none => Except.error (LoadError.fileNotFound load_movie_ratings_ec_path)

/-! ### Concrete sample tables (used to instantiate the theorems) -/

/-- The spec's end-to-end example: two Comedy ratings (4 and 5) and one
Drama rating (3). -/
def sampleTable : Table := [
  ⟨1, 10, "Airplane", "Comedy", 4, 2000, 25⟩,
  ⟨2, 10, "Airplane", "Comedy", 5, 2000, 32⟩,
  ⟨3, 20, "Brazil", "Drama", 3, 2001, 41⟩]

/-- Three release years with one rating each. -/
def sampleYearTable : Table := [
  ⟨1, 10, "A", "Comedy", 1, 2000, 25⟩,
  ⟨2, 11, "B", "Comedy", 2, 2001, 30⟩,
  ⟨3, 12, "C", "Drama", 3, 2002, 35⟩]

/-- A raw/EC table with one null genre and one composite genre. -/
def sampleRawTable : RawTable := [
  ⟨1, 10, "A".data, none, 4, 2000, 25⟩,
  ⟨2, 11, "B".data, some "Action|Comedy".data, 5, 2001, 30⟩]

/-- A raw/EC table with no null genre. -/
def sampleRawNoNull : RawTable := [
  ⟨2, 11, "B".data, some "Action".data, 5, 2001, 30⟩]

/-! ### Helper lemmas about the group-by and sort primitives -/

theorem mem_groupKeys {κ : Type} [DecidableEq κ] (le : κ → κ → Prop)
    [DecidableRel le] (k : Row → κ) (df : Table) (g : κ) :
    g ∈ groupKeys le k df ↔ ∃ r ∈ df, k r = g := by
  unfold groupKeys
  rw [List.mem_insertionSort, List.mem_dedup, List.mem_map]

theorem nodup_groupKeys {κ : Type} [DecidableEq κ] (le : κ → κ → Prop)
    [DecidableRel le] (k : Row → κ) (df : Table) :
    (groupKeys le k df).Nodup := by
  unfold groupKeys
  exact (List.perm_insertionSort le _).nodup_iff.mpr (List.nodup_dedup _)

theorem groupSize_eq_count {κ : Type} [DecidableEq κ] (k : Row → κ)
    (df : Table) (g : κ) : groupSize k df g = (df.map k).count g := by
  unfold groupSize groupRows
  rw [← List.countP_eq_length_filter, List.count_eq_countP, List.countP_map]
  exact List.countP_congr (fun r _ => by simp [beq_iff_eq])

theorem sum_groupSize {κ : Type} [DecidableEq κ] (le : κ → κ → Prop)
    [DecidableRel le] (k : Row → κ) (df : Table) :
    ((groupKeys le k df).map (fun g => groupSize k df g)).sum = df.length := by
  unfold groupKeys
  rw [((List.perm_insertionSort le _).map _).sum_eq]
  calc ((df.map k).dedup.map (fun g => groupSize k df g)).sum
      = ((df.map k).dedup.map (fun g => (df.map k).count g)).sum := by
        exact congrArg List.sum
          (List.map_congr_left (fun g _ => groupSize_eq_count k df g))
    _ = (df.map k).length := List.sum_map_count_dedup_eq_length _
    _ = df.length := List.length_map df k

theorem sortValues_perm {α β : Type} [LinearOrder β] (key : α → β)
    (asc : Bool) (l : List α) : (sortValues key asc l).Perm l := by
  unfold sortValues
  cases asc with
  | true => simpa using List.perm_insertionSort _ l
  | false => simpa using (List.reverse_perm _).trans (List.perm_insertionSort _ l)

theorem sortValues_false_eq_reverse {α β : Type} [LinearOrder β]
    (key : α → β) (l : List α) :
    sortValues key false l = (sortValues key true l).reverse := by
  simp [sortValues]

theorem sorted_sortValues_true {α β : Type} [LinearOrder β] (key : α → β)
    (l : List α) :
    (sortValues key true l).Sorted (fun a b => key a ≤ key b) := by
  have ht : IsTotal α (fun a b => key a ≤ key b) :=
    ⟨fun a b => le_total (key a) (key b)⟩
  have htr : IsTrans α (fun a b => key a ≤ key b) :=
    ⟨fun _ _ _ hab hbc => le_trans hab hbc⟩
  simpa [sortValues] using List.sorted_insertionSort (fun a b => key a ≤ key b) l

theorem sum_map_filter_partition {α : Type} (f : α → ℚ) (p : α → Bool)
    (l : List α) :
    ((l.filter p).map f).sum + ((l.filter (fun a => !(p a))).map f).sum
      = (l.map f).sum := by
  induction l with
  | nil => simp
  | cons a t ih =>
    by_cases h : p a = true
    · simp [List.filter_cons, h, add_assoc, ih]
    · rw [Bool.not_eq_true] at h
      simp [List.filter_cons, h, ih.symm]
      ring

theorem map_zipWith_left {α β γ δ : Type} (f : α → β → γ) (g : γ → δ)
    (g' : α → δ) (h : ∀ a b, g (f a b) = g' a) :
    ∀ (l : List α) (s : List β), s.length = l.length →
      (List.zipWith f l s).map g = l.map g'
  | [], _, _ => by simp
  | a :: l, [], hl => by simp at hl
  | a :: l, b :: s, hl => by
    simp only [List.zipWith_cons_cons, List.map_cons, h a b]
    rw [map_zipWith_left f g g' h l s (by simpa using hl)]

theorem map_zipWith_right {α β γ : Type} (f : α → β → γ) (g : γ → β)
    (h : ∀ a b, g (f a b) = b) :
    ∀ (l : List α) (s : List β), s.length = l.length →
      (List.zipWith f l s).map g = s
  | [], [], _ => by simp
  | [], b :: s, hl => by simp at hl
  | a :: l, [], hl => by simp at hl
  | a :: l, b :: s, hl => by
    simp only [List.zipWith_cons_cons, List.map_cons, h a b]
    rw [map_zipWith_right f g h l s (by simpa using hl)]

/-! ### Claim C9: loader equivalence -/

/-- C9: the primary loader and the EC (Q7) loader read the same fixed path
and are extensionally equal: on every filesystem state they return the
same table, or fail with the same missing-file condition. -/
theorem loaders_extensionally_equal :
    load_movie_ratings_path = load_movie_ratings_ec_path ∧
    ∀ fs : FileSystem, load_movie_ratings fs = load_movie_ratings_ec fs :=
  ⟨rfl, fun _ => rfl⟩

/-! ### Claim C2: genre satisfaction query -/

/-- C2: every row of Q2's output has `n_ratings >= m`; the output is
sorted by mean rating in the requested direction; and the descending
output is exactly the reverse of the ascending output. -/
theorem q2_spec (df : Table) (m : Nat) :
    (∀ asc : Bool, ∀ r ∈ q2 df m asc, m ≤ r.n_ratings) ∧
    (q2 df m true).Sorted (fun a b => a.mean_rating ≤ b.mean_rating) ∧
    (q2 df m false).Sorted (fun a b => b.mean_rating ≤ a.mean_rating) ∧
    q2 df m false = (q2 df m true).reverse := by
  refine ⟨?_, ?_, ?_, ?_⟩
  · intro asc r hr
    unfold q2 at hr
    have hr' : r ∈ q2_filtered df m :=
      ((sortValues_perm (fun r : Q2Row => r.mean_rating) asc
        (q2_filtered df m)).mem_iff).mp hr
    simpa using (List.mem_filter.mp hr').2
  · unfold q2
    exact sorted_sortValues_true _ _
  · unfold q2
    rw [sortValues_false_eq_reverse]
    exact List.pairwise_reverse.mpr (sorted_sortValues_true _ _)
  · unfold q2
    exact sortValues_false_eq_reverse _ _

/-- Witness for C2 at the spec's end-to-end example: Drama (n=1) passes
the `m = 1` filter, and descending output reverses the ascending one. -/
theorem q2_spec_witness :
    ((1:Nat) ≤ (Q2Row.mk "Drama" 3 1).n_ratings) ∧
    q2 sampleTable 1 false = (q2 sampleTable 1 true).reverse := by
  constructor
  · refine (q2_spec sampleTable 1).1 false ⟨"Drama", 3, 1⟩ ?_
    simp [q2, q2_filtered, q2_genre_stats, groupKeys, groupMeanRating,
      groupSize, groupRows, sortValues, sampleTable, List.insertionSort,
      List.orderedInsert, List.dedup, List.filter, List.pwFilter]
    norm_num
  · exact (q2_spec sampleTable 1).2.2.2

/-! ### Claim C4: top movies query -/

/-- C4: Q4's output has exactly `min N (number of movies passing the
threshold)` rows, every output row has `n_ratings >= m`, and the rows are
ordered non-increasing by mean rating with ties broken by non-increasing
count. -/
theorem q4_spec (df : Table) (m n : Nat) :
    (q4 df m n).length = min n (q4_movie_filtered df m).length ∧
    (∀ r ∈ q4 df m n, m ≤ r.n_ratings) ∧
    (q4 df m n).Pairwise (fun a b => b.mean_rating < a.mean_rating ∨
      (a.mean_rating = b.mean_rating ∧ b.n_ratings ≤ a.n_ratings)) := by
  refine ⟨?_, ?_, ?_⟩
  · unfold q4
    rw [List.length_take, (List.perm_insertionSort q4_le _).length_eq]
  · intro r hr
    have h1 : r ∈ (q4_movie_filtered df m).insertionSort q4_le :=
      List.mem_of_mem_take hr
    have h2 := (List.mem_insertionSort q4_le).mp h1
    simpa using (List.mem_filter.mp h2).2
  · have htotal : IsTotal Q4Row q4_le := by
      constructor
      intro a b
      unfold q4_le
      rcases lt_trichotomy b.mean_rating a.mean_rating with h | h | h
      · exact Or.inl (Or.inl h)
      · rcases le_total b.n_ratings a.n_ratings with hn | hn
        · exact Or.inl (Or.inr ⟨h.symm, hn⟩)
        · exact Or.inr (Or.inr ⟨h, hn⟩)
      · exact Or.inr (Or.inl h)
    have htrans : IsTrans Q4Row q4_le := by
      constructor
      intro a b c hab hbc
      unfold q4_le at hab hbc ⊢
      rcases hab with hab | ⟨hab1, hab2⟩
      · rcases hbc with hbc | ⟨hbc1, hbc2⟩
        · exact Or.inl (lt_trans hbc hab)
        · exact Or.inl (hbc1 ▸ hab)
      · rcases hbc with hbc | ⟨hbc1, hbc2⟩
        · exact Or.inl (hab1 ▸ hbc)
        · exact Or.inr ⟨hab1.trans hbc1, le_trans hbc2 hab2⟩
    have hs : ((q4_movie_filtered df m).insertionSort q4_le).Pairwise q4_le :=
      List.sorted_insertionSort q4_le _
    have := hs.sublist (List.take_sublist n _)
    exact this

/-- Witness for C4: on the sample table with `m = 1`, the Airplane row
(two ratings, mean 9/2) is in the top-5 output and passes the filter. -/
theorem q4_spec_witness :
    (1:Nat) ≤ (Q4Row.mk 10 "Airplane" (9/2) 2).n_ratings := by
  refine (q4_spec sampleTable 1 5).2.1 ⟨10, "Airplane", 9/2, 2⟩ ?_
  simp [q4, q4_movie_filtered, q4_movie_stats, groupKeys, groupMeanRating,
    groupSize, groupRows, sampleTable, List.insertionSort,
    List.orderedInsert, List.dedup, List.filter, List.pwFilter, q4_le,
    pairLe]
  norm_num

/-! ### Claim C10: ratings-vs-age query -/

/-- C10: Q5 is total for every selected genre subset (it is a plain Lean
function, so it cannot raise); its output has exactly one row per (age,
genre) combination observed among rows whose genre is selected, with no
synthetic rows for unobserved combinations; and an empty selection yields
an empty table. -/
theorem q5_spec (df : Table) (sel : List String) :
    q5 df [] = [] ∧
    (∀ (a : Nat) (g : String),
      ((a, g) ∈ (q5 df sel).map (fun r => (r.age, r.genres)) ↔
        ∃ r ∈ df, r.age = a ∧ r.genres = g ∧ g ∈ sel)) ∧
    ((q5 df sel).map (fun r => (r.age, r.genres))).Nodup := by
  have hkeys : (q5 df sel).map (fun r => (r.age, r.genres)) =
      groupKeys pairLe (fun r => (r.age, r.genres)) (q5_restricted df sel) := by
    unfold q5
    rw [List.map_map]
    exact List.map_id _
  refine ⟨?_, ?_, ?_⟩
  · simp [q5, q5_restricted, groupKeys]
  · intro a g
    rw [hkeys, mem_groupKeys]
    constructor
    · rintro ⟨r, hr, hag⟩
      have hdf := List.mem_filter.mp hr
      obtain ⟨ha, hg⟩ := Prod.mk.injEq .. ▸ hag
      exact ⟨r, hdf.1, ha, hg, by
        have := hdf.2
        rw [hg] at this
        simpa using this⟩
    · rintro ⟨r, hr, ha, hg, hsel⟩
      refine ⟨r, List.mem_filter.mpr ⟨hr, ?_⟩, by rw [ha, hg]⟩
      rw [hg]
      simpa using hsel
  · rw [hkeys]
    exact nodup_groupKeys _ _ _

/-- Witness for C10: on the sample table with selection of Comedy, the
observed combination (25, Comedy) is a key of the output. -/
theorem q5_spec_witness :
    ((25 : Nat), "Comedy") ∈
      (q5 sampleTable ["Comedy"]).map (fun r => (r.age, r.genres)) := by
  refine ((q5_spec sampleTable ["Comedy"]).2.1 25 "Comedy").mpr
    ⟨⟨1, 10, "Airplane", "Comedy", 4, 2000, 25⟩, ?_, rfl, rfl, by simp⟩
  simp [sampleTable]

/-! ### Claim C5: genre cleaning (null replacement, split, explode) -/

theorem splitOnPipe_no_pipe (a : Str) (ha : '|' ∉ a) : splitOnPipe a = [a] := by
  induction a with
  | nil => rfl
  | cons c cs ih =>
    have hc : ¬c = '|' := fun h => ha (h ▸ List.mem_cons_self c cs)
    have hcs : '|' ∉ cs := fun h => ha (List.mem_cons_of_mem c h)
    unfold splitOnPipe
    rw [if_neg hc, ih hcs]

theorem splitOnPipe_append (a b : Str) (ha : '|' ∉ a) (hb : '|' ∉ b) :
    splitOnPipe (a ++ '|' :: b) = [a, b] := by
  induction a with
  | nil =>
    show splitOnPipe ('|' :: b) = [[], b]
    unfold splitOnPipe
    rw [if_pos rfl, splitOnPipe_no_pipe b hb]
  | cons c cs ih =>
    have hc : ¬c = '|' := fun h => ha (h ▸ List.mem_cons_self c cs)
    have hcs : '|' ∉ cs := fun h => ha (List.mem_cons_of_mem c h)
    show splitOnPipe (c :: (cs ++ '|' :: b)) = [c :: cs, b]
    unfold splitOnPipe
    rw [if_neg hc, ih hcs]

/-- C5: Q7 first replaces null genres by the literal label "(no genres
listed)", then splits each genre string on the pipe delimiter and expands
each row into one row per token, duplicating the other columns.  In
particular a row with composite genre `a|b` contributes exactly two
cleaned rows, one with genre `a` and one with genre `b`, identical to the
source row in every other field. -/
theorem q7_clean_spec :
    (∀ t : RawTable, q7_fillna t = t.map (fun r =>
      match r.genres with
      | none => { r with genres := some noGenresListed }
      | some _ => r)) ∧
    (∀ (t1 t2 : RawTable) (u mid : Nat) (ttl : Str) (rat : ℚ) (yr : Int)
      (ag : Nat) (a b : Str), '|' ∉ a → '|' ∉ b →
      (q7_run (t1 ++ ⟨u, mid, ttl, some (a ++ '|' :: b), rat, yr, ag⟩ :: t2)).2 =
        (q7_run t1).2 ++
          ⟨u, mid, ttl, a, rat, yr, ag⟩ :: ⟨u, mid, ttl, b, rat, yr, ag⟩ ::
            (q7_run t2).2) := by
  constructor
  · intro t
    refine List.map_congr_left ?_
    rintro ⟨u, mid, ttl, g, rat, yr, ag⟩ _
    cases g <;> rfl
  · intro t1 t2 u mid ttl rat yr ag a b ha hb
    show q7_cleaned (q7_fillna (t1 ++ _ :: t2)) = _
    unfold q7_fillna q7_cleaned
    rw [List.map_append, List.map_cons, List.flatMap_append, List.flatMap_cons]
    congr 1
    show q7_explode_row _ ++ _ = _
    unfold q7_explode_row
    simp only [Option.getD_some]
    rw [splitOnPipe_append a b ha hb]
    rfl

/-- Witness for C5: the composite row with genre "Action|Comedy" explodes
into exactly the Action row and the Comedy row. -/
theorem q7_clean_spec_witness :
    (q7_run [⟨2, 11, "B".data, some ("Action".data ++ '|' :: "Comedy".data),
      5, 2001, 30⟩]).2 =
      [⟨2, 11, "B".data, "Action".data, 5, 2001, 30⟩,
       ⟨2, 11, "B".data, "Comedy".data, 5, 2001, 30⟩] :=
  q7_clean_spec.2 [] [] 2 11 "B".data 5 2001 30 "Action".data "Comedy".data
    (by decide) (by decide)

/-! ### Claims C1 and C6: genre composition and its percentages -/

theorem q1_total_eq_length (df : Table) : q1_total df = df.length := by
  unfold q1_total q1_genre_counts
  have hperm := (sortValues_perm (fun gc : String × Nat => gc.2) false
    ((groupKeys (· ≤ ·) Row.genres df).map
      (fun g => (g, groupSize Row.genres df g)))).map
    (fun gc : String × Nat => gc.2)
  rw [hperm.sum_eq, List.map_map]
  exact sum_groupSize _ _ _

theorem q1_pct_nonneg (df : Table) : ∀ r ∈ q1_with_pct df, 0 ≤ r.pct := by
  intro r hr
  unfold q1_with_pct at hr
  obtain ⟨gc, _, rfl⟩ := List.mem_map.mp hr
  have h1 : (0:ℚ) ≤ 100 * (gc.2 : ℚ) := by positivity
  exact div_nonneg h1 (Nat.cast_nonneg _)

/-- C1: genres whose percentage share is at least `p` appear individually
in Q1's output; when some genre falls below `p`, the output is the major
rows followed by one synthetic "Other" row whose count and percentage are
the sums over the minor rows; when no genre falls below `p` — in
particular when `p = 0` — no "Other" row is appended. -/
theorem q1_spec (df : Table) (p : ℚ) :
    (∀ r ∈ q1_with_pct df, p ≤ r.pct → r ∈ q1_display df p) ∧
    ((∃ r ∈ q1_with_pct df, r.pct < p) →
      q1_display df p = q1_major df p ++
        [⟨"Other",
          (((q1_with_pct df).filter (fun r => decide (r.pct < p))).map
            (fun r => r.count)).sum,
          (((q1_with_pct df).filter (fun r => decide (r.pct < p))).map
            (fun r => r.pct)).sum⟩]) ∧
    ((∀ r ∈ q1_with_pct df, p ≤ r.pct) → q1_display df p = q1_major df p) ∧
    (p = 0 → q1_display df p = q1_major df p) := by
  refine ⟨?_, ?_, ?_, ?_⟩
  · intro r hr hp
    have hmaj : r ∈ q1_major df p :=
      List.mem_filter.mpr ⟨hr, by simpa using hp⟩
    unfold q1_display
    by_cases h : q1_minor df p = []
    · rw [if_pos h]; exact hmaj
    · rw [if_neg h]; exact List.mem_append_left _ hmaj
  · rintro ⟨r, hr, hlt⟩
    have hne : q1_minor df p ≠ [] :=
      List.ne_nil_of_mem (List.mem_filter.mpr ⟨hr, by simpa using hlt⟩)
    unfold q1_display
    rw [if_neg hne]
    rfl
  · intro h
    have hnil : q1_minor df p = [] := by
      unfold q1_minor
      rw [List.filter_eq_nil_iff]
      intro r hr
      simpa using not_lt.mpr (h r hr)
    unfold q1_display
    rw [if_pos hnil]
  · intro hp
    subst hp
    have hnil : q1_minor df 0 = [] := by
      unfold q1_minor
      rw [List.filter_eq_nil_iff]
      intro r hr
      simpa using not_lt.mpr (q1_pct_nonneg df r hr)
    unfold q1_display
    rw [if_pos hnil]

/-- Witness for C1: at `p = 0` the sample output is the major rows alone;
at `p = 40` the Drama share 100/3 falls below the threshold and the
output is major rows plus the summed "Other" row. -/
theorem q1_spec_witness :
    q1_display sampleTable 0 = q1_major sampleTable 0 ∧
    q1_display sampleTable 40 = q1_major sampleTable 40 ++
      [⟨"Other",
        (((q1_with_pct sampleTable).filter (fun r => decide (r.pct < 40))).map
          (fun r => r.count)).sum,
        (((q1_with_pct sampleTable).filter (fun r => decide (r.pct < 40))).map
          (fun r => r.pct)).sum⟩] := by
  constructor
  · exact (q1_spec sampleTable 0).2.2.2 rfl
  · refine (q1_spec sampleTable 40).2.1 ⟨⟨"Drama", 1, 100/3⟩, ?_, by norm_num⟩
    simp [q1_with_pct, q1_total, q1_genre_counts, groupKeys, groupSize,
      groupRows, sortValues, sampleTable, List.insertionSort,
      List.orderedInsert, List.dedup, List.filter, List.pwFilter]

/-- C6: the percentage divisor `max(total, 1)` is strictly positive, so no
division by zero occurs; and for every non-empty table the percentage
shares of the displayed rows (major rows plus any "Other" row) sum to
exactly 100 over rational arithmetic. -/
theorem q1_pct_sum_spec (df : Table) (p : ℚ) :
    (0:ℚ) < ((max (q1_total df) 1 : Nat) : ℚ) ∧
    (df ≠ [] → ((q1_display df p).map (fun r => r.pct)).sum = 100) := by
  constructor
  · exact_mod_cast Nat.lt_of_lt_of_le Nat.zero_lt_one (le_max_right _ _)
  · intro hdf
    have hpart := sum_map_filter_partition (fun r : Q1Row => r.pct)
      (fun r => decide (p ≤ r.pct)) (q1_with_pct df)
    have hminorpred : (q1_with_pct df).filter
        (fun r => !(decide (p ≤ r.pct))) = q1_minor df p := by
      unfold q1_minor
      refine List.filter_congr ?_
      intro x _
      rw [← decide_not]
      exact decide_eq_decide.mpr not_le
    rw [hminorpred] at hpart
    have hsum_all : ((q1_display df p).map (fun r => r.pct)).sum =
        ((q1_with_pct df).map (fun r => r.pct)).sum := by
      unfold q1_display
      by_cases h : q1_minor df p = []
      · rw [if_pos h]
        have hz : ((q1_minor df p).map (fun r => r.pct)).sum = 0 := by
          rw [h]; rfl
        rw [hz, add_zero] at hpart
        exact hpart
      · rw [if_neg h, List.map_append, List.sum_append]
        show _ + ((q1_other_row df p).pct + 0) = _
        rw [add_zero]
        exact hpart
    rw [hsum_all]
    have hlen : 1 ≤ df.length := List.length_pos.mpr hdf
    have hmax : max (q1_total df) 1 = df.length := by
      rw [q1_total_eq_length]
      exact Nat.max_eq_left hlen
    have hMne : ((max (q1_total df) 1 : Nat) : ℚ) ≠ 0 := by
      rw [hmax]
      exact_mod_cast Nat.pos_iff_ne_zero.mp hlen
    unfold q1_with_pct
    rw [List.map_map]
    have hcongr : (q1_genre_counts df).map
        ((fun r : Q1Row => r.pct) ∘
          (fun gc => ⟨gc.1, gc.2, 100 * (gc.2 : ℚ) /
            (max (q1_total df) 1 : Nat)⟩)) =
        (q1_genre_counts df).map
          (fun gc => (100 / ((max (q1_total df) 1 : Nat) : ℚ)) *
            ((gc.2 : Nat) : ℚ)) := by
      refine List.map_congr_left ?_
      intro gc _
      show 100 * (gc.2 : ℚ) / ((max (q1_total df) 1 : Nat) : ℚ) = _
      ring
    rw [hcongr, List.sum_map_mul_left]
    have hcast : ((q1_genre_counts df).map
        (fun gc => ((gc.2 : Nat) : ℚ))).sum = ((q1_total df : Nat) : ℚ) := by
      unfold q1_total
      rw [Nat.cast_list_sum, List.map_map]
      rfl
    have heq : ((q1_total df : Nat) : ℚ) =
        ((max (q1_total df) 1 : Nat) : ℚ) := by
      rw [hmax, q1_total_eq_length]
    rw [hcast, heq]
    exact div_mul_cancel₀ 100 hMne

/-- Witness for C6: on the non-empty sample table the displayed shares
200/3 (Comedy) and 100/3 (Drama) sum to 100. -/
theorem q1_pct_sum_spec_witness :
    ((q1_display sampleTable 2).map (fun r => r.pct)).sum = 100 :=
  (q1_pct_sum_spec sampleTable 2).2 (by decide)

/-! ### Claim C3: yearly trend query -/

theorem q3_smoothed_length (df : Table) (lo hi : Int) (m w : Nat) :
    (q3_smoothed df lo hi m w).length = (q3_year_filtered df lo hi m).length := by
  unfold q3_smoothed
  by_cases h : 1 < w ∧ q3_year_filtered df lo hi m ≠ []
  · rw [if_pos h]
    unfold rolling_mean_centered
    rw [List.length_map, List.length_range, List.length_map]
  · rw [if_neg h, List.length_map]

theorem q3_smoothed_of_one_lt (df : Table) (lo hi : Int) (m w : Nat)
    (hw : 1 < w) :
    q3_smoothed df lo hi m w = rolling_mean_centered w
      ((q3_year_filtered df lo hi m).map (fun s => s.mean_rating)) := by
  unfold q3_smoothed
  by_cases hf : q3_year_filtered df lo hi m = []
  · rw [hf]
    simp [rolling_mean_centered]
  · rw [if_pos ⟨hw, hf⟩]

theorem rolling_getD (w : Nat) (s : List ℚ) (i : Nat) (h : i < s.length) :
    (rolling_mean_centered w s).getD i none =
      if w / 2 ≤ i ∧ i + (w - 1) / 2 < s.length then
        some ((((s.drop (i - w / 2)).take w).sum) / (w : ℚ))
      else none := by
  unfold rolling_mean_centered
  have hlen : i < ((List.range s.length).map (fun i =>
      if w / 2 ≤ i ∧ i + (w - 1) / 2 < s.length then
        some ((((s.drop (i - w / 2)).take w).sum) / (w : ℚ))
      else none)).length := by
    rw [List.length_map, List.length_range]
    exact h
  rw [List.getD_eq_getElem _ _ hlen, List.getElem_map, List.getElem_range]

theorem q3_years_col (df : Table) (lo hi : Int) (m w : Nat) :
    (q3 df lo hi m w).map (fun r => r.year) =
      (q3_year_filtered df lo hi m).map (fun s => s.year) := by
  unfold q3
  exact map_zipWith_left
    (fun (s : Q3Stat) (o : Option ℚ) =>
      (⟨s.year, s.mean_rating, o, s.n_ratings⟩ : Q3Row))
    (fun r => r.year) (fun s => s.year) (fun a b => rfl) _ _
    (q3_smoothed_length df lo hi m w)

theorem q3_smoothed_col (df : Table) (lo hi : Int) (m w : Nat) :
    (q3 df lo hi m w).map (fun r => r.mean_rating_smoothed) =
      q3_smoothed df lo hi m w := by
  unfold q3
  exact map_zipWith_right
    (fun (s : Q3Stat) (o : Option ℚ) =>
      (⟨s.year, s.mean_rating, o, s.n_ratings⟩ : Q3Row))
    (fun r => r.mean_rating_smoothed) (fun a b => rfl) _ _
    (q3_smoothed_length df lo hi m w)

theorem mem_q3_years (df : Table) (lo hi : Int) (m : Nat) (y : Int) :
    y ∈ (q3_year_filtered df lo hi m).map (fun s => s.year) ↔
      (∃ r ∈ df, r.year = y) ∧ lo ≤ y ∧ y ≤ hi ∧
        m ≤ groupSize Row.year df y := by
  unfold q3_year_filtered
  have hperm := (sortValues_perm (fun s : Q3Stat => s.year) true
    ((q3_year_stats df).filter (fun s => decide (lo ≤ s.year) &&
      decide (s.year ≤ hi) && decide (m ≤ s.n_ratings)))).map
    (fun s : Q3Stat => s.year)
  rw [hperm.mem_iff, List.mem_map]
  constructor
  · rintro ⟨s, hs, hsy⟩
    obtain ⟨hstats, hpred⟩ := List.mem_filter.mp hs
    obtain ⟨y', hy', rfl⟩ := List.mem_map.mp hstats
    have hy : y' = y := hsy
    subst hy
    simp only [Bool.and_eq_true, decide_eq_true_eq] at hpred
    exact ⟨(mem_groupKeys _ _ _ _).mp hy', hpred.1.1, hpred.1.2, hpred.2⟩
  · rintro ⟨⟨r, hr, hry⟩, hlo, hhi, hm⟩
    refine ⟨⟨y, groupMeanRating Row.year df y, groupSize Row.year df y⟩,
      List.mem_filter.mpr ⟨?_, ?_⟩, rfl⟩
    · exact List.mem_map.mpr ⟨y, (mem_groupKeys _ _ _ _).mpr ⟨r, hr, hry⟩, rfl⟩
    · simp only [Bool.and_eq_true, decide_eq_true_eq]
      exact ⟨⟨hlo, hhi⟩, hm⟩

theorem q3_years_sorted (df : Table) (lo hi : Int) (m : Nat) :
    ((q3_year_filtered df lo hi m).map (fun s => s.year)).Sorted (· < ·) := by
  have hle : ((q3_year_filtered df lo hi m).map
      (fun s => s.year)).Sorted (· ≤ ·) := by
    unfold q3_year_filtered
    exact List.pairwise_map.mpr (sorted_sortValues_true (fun s : Q3Stat => s.year) _)
  have hnd : ((q3_year_filtered df lo hi m).map (fun s => s.year)).Nodup := by
    unfold q3_year_filtered
    have hperm := (sortValues_perm (fun s : Q3Stat => s.year) true
      ((q3_year_stats df).filter (fun s => decide (lo ≤ s.year) &&
        decide (s.year ≤ hi) && decide (m ≤ s.n_ratings)))).map
      (fun s : Q3Stat => s.year)
    rw [hperm.nodup_iff]
    have hsub := (List.filter_sublist (p := fun s => decide (lo ≤ s.year) &&
      decide (s.year ≤ hi) && decide (m ≤ s.n_ratings))
      (q3_year_stats df)).map (fun s : Q3Stat => s.year)
    refine hsub.nodup ?_
    unfold q3_year_stats
    rw [List.map_map]
    rw [show ((fun s : Q3Stat => s.year) ∘ (fun y => (⟨y,
      groupMeanRating Row.year df y, groupSize Row.year df y⟩ : Q3Stat))) =
      id from rfl, List.map_id]
    exact nodup_groupKeys _ _ _
  exact hle.lt_of_le hnd

/-- C3: Q3 keeps exactly the years in [lo, hi] with per-year count at
least `m`, sorted strictly ascending; the smoothed column has the same
length as the filtered series; with `w = 1` it equals the raw mean-rating
series; with `w > 1`, positions with a full centered window of `w` points
carry the arithmetic mean of those `w` mean ratings and edge positions
carry no value. -/
theorem q3_spec (df : Table) (lo hi : Int) (m w : Nat) :
    (∀ y : Int, y ∈ (q3 df lo hi m w).map (fun r => r.year) ↔
      (∃ r ∈ df, r.year = y) ∧ lo ≤ y ∧ y ≤ hi ∧
        m ≤ groupSize Row.year df y) ∧
    ((q3 df lo hi m w).map (fun r => r.year)).Sorted (· < ·) ∧
    (q3 df lo hi m w).map (fun r => r.mean_rating_smoothed) =
      q3_smoothed df lo hi m w ∧
    (q3_smoothed df lo hi m w).length = (q3_year_filtered df lo hi m).length ∧
    (w = 1 → q3_smoothed df lo hi m w =
      (q3_year_filtered df lo hi m).map (fun s => some s.mean_rating)) ∧
    (1 < w → ∀ i, i < (q3_year_filtered df lo hi m).length →
      ((w / 2 ≤ i ∧ i + (w - 1) / 2 < (q3_year_filtered df lo hi m).length →
        (q3_smoothed df lo hi m w).getD i none =
          some (((((q3_year_filtered df lo hi m).map
            (fun s => s.mean_rating)).drop (i - w / 2)).take w).sum / (w : ℚ)) ∧
        ((((q3_year_filtered df lo hi m).map
          (fun s => s.mean_rating)).drop (i - w / 2)).take w).length = w) ∧
      (¬(w / 2 ≤ i ∧ i + (w - 1) / 2 < (q3_year_filtered df lo hi m).length) →
        (q3_smoothed df lo hi m w).getD i none = none))) := by
  refine ⟨?_, ?_, q3_smoothed_col df lo hi m w, q3_smoothed_length df lo hi m w,
    ?_, ?_⟩
  · intro y
    rw [q3_years_col]
    exact mem_q3_years df lo hi m y
  · rw [q3_years_col]
    exact q3_years_sorted df lo hi m
  · intro hw
    subst hw
    unfold q3_smoothed
    rw [if_neg (fun hc => absurd hc.1 (lt_irrefl 1))]
  · intro hw i hi'
    have hs : i < ((q3_year_filtered df lo hi m).map
        (fun s => s.mean_rating)).length := by
      rw [List.length_map]
      exact hi'
    constructor
    · intro hc
      obtain ⟨hc1, hc2⟩ := hc
      rw [q3_smoothed_of_one_lt df lo hi m w hw, rolling_getD w _ i hs,
        if_pos ⟨hc1, by rw [List.length_map]; exact hc2⟩]
      refine ⟨rfl, ?_⟩
      rw [List.length_take, List.length_drop, List.length_map]
      omega
    · intro hc
      rw [q3_smoothed_of_one_lt df lo hi m w hw, rolling_getD w _ i hs,
        if_neg (fun hcc => hc ⟨hcc.1, by
          rw [List.length_map] at hcc
          exact hcc.2⟩)]

/-- Witness for C3 on three years 2000-2002 with one rating each: 2001 is
kept; with `w = 1` the smoothed series is the raw series; with `w = 3` the
middle position carries the mean of the full window. -/
theorem q3_spec_witness :
    ((2001 : Int) ∈ (q3 sampleYearTable 2000 2002 0 3).map (fun r => r.year)) ∧
    q3_smoothed sampleYearTable 2000 2002 0 1 =
      (q3_year_filtered sampleYearTable 2000 2002 0).map
        (fun s => some s.mean_rating) ∧
    (q3_smoothed sampleYearTable 2000 2002 0 3).getD 1 none =
      some (((((q3_year_filtered sampleYearTable 2000 2002 0).map
        (fun s => s.mean_rating)).drop 0).take 3).sum / (3 : ℚ)) := by
  refine ⟨?_, ?_, ?_⟩
  · exact ((q3_spec sampleYearTable 2000 2002 0 3).1 2001).mpr
      ⟨⟨⟨2, 11, "B", "Comedy", 2, 2001, 30⟩, by simp [sampleYearTable], rfl⟩,
        by decide, by decide, Nat.zero_le _⟩
  · exact (q3_spec sampleYearTable 2000 2002 0 1).2.2.2.2.1 rfl
  · exact (((q3_spec sampleYearTable 2000 2002 0 3).2.2.2.2.2 (by decide) 1
      (by decide)).1 (by decide)).1

/-! ### Claim C8: source immutability (frame property)

Q1-Q6 only build derived frames from `df` (Q1's `major` slice is even
explicitly copied), and in this embedding they are plain functions of the
input.  Q7, however, executes `df_ec["genres"] = df_ec["genres"].fillna(...)`
at source line 209, a column assignment that writes into the loaded frame
in place; only the explode step (line 210, via `assign`) builds a new
frame.  `q7_run` returns the final state of the `df_ec` binding. -/

/-- C8 counterexample: running the Q7 tab on a loaded table with a null
genre leaves the `df_ec` frame different from the table that was loaded,
so the null-replacement step does mutate its source table. -/
theorem q7_mutation_counterexample :
    (q7_run sampleRawTable).1 ≠ sampleRawTable := by decide

/-- C8 amended: Q1-Q6 and Q7's explode step build new derived tables, but
Q7's null-replacement writes the filled genres column back into the
loaded EC frame: after the Q7 tab runs, that frame equals `fillna` of the
loaded table, which is unchanged precisely when no genre is null. -/
theorem q7_frame_spec (t : RawTable) :
    (q7_run t).1 = q7_fillna t ∧
    ((∀ r ∈ t, r.genres ≠ none) → (q7_run t).1 = t) ∧
    ((∃ r ∈ t, r.genres = none) → (q7_run t).1 ≠ t) := by
  refine ⟨rfl, ?_, ?_⟩
  · intro h
    show q7_fillna t = t
    unfold q7_fillna
    have hmap : t.map (fun r =>
        { r with genres := some (r.genres.getD noGenresListed) }) =
        t.map id := by
      refine List.map_congr_left ?_
      intro r hr
      rcases r with ⟨u, mid, ttl, gg, rat, yr, ag⟩
      cases gg with
      | none => exact absurd rfl (h _ hr)
      | some g => rfl
    rw [hmap, List.map_id]
  · rintro ⟨r, hr, hg⟩ heq
    have heq' : q7_fillna t = t := heq
    obtain ⟨i, hi, hti⟩ := List.mem_iff_getElem.mp hr
    have h1 : (q7_fillna t)[i]? = t[i]? := by rw [heq']
    unfold q7_fillna at h1
    rw [List.getElem?_map, List.getElem?_eq_getElem hi] at h1
    simp only [Option.map_some'] at h1
    rw [hti] at h1
    have h2 := congrArg RawRow.genres (Option.some.inj h1)
    rw [hg] at h2
    simp at h2

/-- Witness for C8's amended claim: a table with no null genre is left
unchanged by the Q7 tab, while the sample table with a null genre is
changed. -/
theorem q7_frame_spec_witness :
    (q7_run sampleRawNoNull).1 = sampleRawNoNull ∧
    (q7_run sampleRawTable).1 ≠ sampleRawTable := by
  constructor
  · exact (q7_frame_spec sampleRawNoNull).2.1 (by decide)
  · refine (q7_frame_spec sampleRawTable).2.2
      ⟨⟨1, 10, "A".data, none, 4, 2000, 25⟩, ?_, rfl⟩
    exact List.mem_cons_self _ _

end MovieDashboard
